import Mathlib

/-!
Shallow embedding of the ML pipeline repository: the pipeline driver
(`main.py`) and the basic-cleaning stage (`src/basic_cleaning/run.py`).

Numeric cells (`price`, `longitude`, `latitude`) are modelled as `Option ℚ`:
`none` stands for a missing value (NaN), and `some x` for a finite float,
whose ordering on the values appearing here agrees with the rational order.
The `last_review` column is an optional string before cleaning and an
optional parsed date afterwards.
-/

deriving instance DecidableEq for Except

namespace MLPipeline

/-- A calendar date, the result of parsing a `last_review` entry. -/
structure Date where
  year : Nat
  month : Nat
  day : Nat
deriving DecidableEq, Repr

/-- Cut a character list at every occurrence of `sep`; the empty list yields
one empty field, and a trailing separator yields a trailing empty field
(the behaviour of Python `str.split(sep)` for a one-character separator). -/
def splitOnCharAux (sep : Char) : List Char → List Char → List (List Char)
  | [], acc => [acc.reverse]
  | c :: rest, acc =>
    if c = sep then acc.reverse :: splitOnCharAux sep rest []
    else splitOnCharAux sep rest (c :: acc)

/-- Read a run of decimal digits, most significant first, accumulating into
`n`; any non-digit character fails. -/
def digitsValAux : List Char → Nat → Option Nat
  | [], n => some n
  | c :: rest, n =>
    if 48 ≤ c.toNat ∧ c.toNat ≤ 57 then digitsValAux rest (n * 10 + (c.toNat - 48))
    else none

/-- The numeric value of a nonempty all-digit character list. -/
def digitsVal (cs : List Char) : Option Nat :=
  match cs with
  | [] => none
  | _ :: _ => digitsValAux cs 0

/-- Models the `pandas.to_datetime` string parser on ISO `YYYY-MM-DD` dates
(the format of the `last_review` column of the dataset); any string not of
that shape is unparsable and yields `none`. -/
def parseDate (s : String) : Option Date :=
  match splitOnCharAux '-' s.toList [] with
  | [ys, ms, ds] =>
    match digitsVal ys, digitsVal ms, digitsVal ds with
    | some y, some m, some d =>
      if ys.length = 4 ∧ ms.length = 2 ∧ ds.length = 2 ∧
         1 ≤ m ∧ m ≤ 12 ∧ 1 ≤ d ∧ d ≤ 31 then some ⟨y, m, d⟩ else none
    | _, _, _ => none
  | _ => none

/-- One row of the raw input dataset read by `pd.read_csv` in
`src/basic_cleaning/run.py`.  `other` stands for the concatenation of all
remaining columns, which the cleaning stage never touches. -/
structure Row where
  price : Option ℚ
  longitude : Option ℚ
  latitude : Option ℚ
  last_review : Option String
  other : String
deriving DecidableEq, Repr

/-- One row of the cleaned output: identical to `Row` except that the
`last_review` column now holds a parsed date (or null). -/
structure CleanRow where
  price : Option ℚ
  longitude : Option ℚ
  latitude : Option ℚ
  last_review : Option Date
  other : String
deriving DecidableEq, Repr

/-- `pandas.Series.between(left, right)` applied to one cell, with the default
inclusive endpoints; a missing value (NaN) compares `False` on both sides,
hence is never between. -/
def between (v : Option ℚ) (left right : ℚ) : Bool :=
  match v with
  | none => false
  | some x => decide (left ≤ x) && decide (x ≤ right)

/-- `pd.to_datetime` (default `errors="raise"`) applied to one row's
`last_review` cell: a missing value (NaN) becomes NaT (`none`), a parsable
string becomes a date, and an unparsable string raises an error. -/
def to_datetime_row (r : Row) : Except String CleanRow :=
  match r.last_review with
  | none => .ok ⟨r.price, r.longitude, r.latitude, none, r.other⟩
  | some s =>
    match parseDate s with
    | some d => .ok ⟨r.price, r.longitude, r.latitude, some d, r.other⟩
    | none => .error "unparsable last_review"

/-- `df['last_review'] = pd.to_datetime(df['last_review'])`
(`src/basic_cleaning/run.py` line 30) applied to the whole frame: the first
unparsable cell raises; otherwise every row is converted in place. -/
def to_datetime (df : List Row) : Except String (List CleanRow) :=
  match df with
  | [] => .ok []
  | r :: rest =>
    match to_datetime_row r with
    | .ok c =>
      match to_datetime rest with
      | .ok cs => .ok (c :: cs)
      | .error e => .error e
    | .error e => .error e

/-- The hard-coded longitude lower bound `-74.25` of the NYC bounding box
(`src/basic_cleaning/run.py` line 32), written as an exact rational. -/
def lonLow : ℚ := mkRat (-7425) 100

/-- The hard-coded longitude upper bound `-73.50`. -/
def lonHigh : ℚ := mkRat (-7350) 100

/-- The hard-coded latitude lower bound `40.5`. -/
def latLow : ℚ := mkRat 405 10

/-- The hard-coded latitude upper bound `41.2`. -/
def latHigh : ℚ := mkRat 412 10

/-- The dataframe transformation performed by `go` in
`src/basic_cleaning/run.py` (lines 23–35): drop price outliers with the
inclusive `between` filter, convert `last_review` to datetime, then keep only
rows inside the hard-coded NYC bounding box.  The surrounding W&B artifact
download/upload is I/O and is not part of the row transformation. -/
def go (df : List Row) (min_price max_price : ℚ) : Except String (List CleanRow) :=
  let df1 := df.filter (fun r => between r.price min_price max_price)
  match to_datetime df1 with
  | .ok df2 =>
    .ok (df2.filter (fun r =>
      between r.longitude lonLow lonHigh && between r.latitude latLow latHigh))
  | .error e => .error e

/-! ## The command-line interface of the cleaning stage
(`src/basic_cleaning/run.py`, `__main__` block, lines 48–89) -/

/-- Digits with an optional fractional part, no sign: `a` before the point
and `b` after it denote the rational `(a * 10 ^ k + b) / 10 ^ k` where `k`
is the number of fractional digits. -/
def parseUnsignedFloat (cs : List Char) : Option ℚ :=
  match splitOnCharAux '.' cs [] with
  | [i] => (digitsVal i).map (fun n => mkRat (n : Int) 1)
  | [i, f] =>
    match digitsVal i, digitsVal f with
    | some a, some b =>
      some (mkRat ((a : Int) * 10 ^ f.length + (b : Int)) (10 ^ f.length))
    | _, _ => none
  | _ => none

/-- Models Python `float()` (the `type=float` converter of `argparse`) on
plain signed decimal literals; exponent forms, `inf`/`nan` and surrounding
whitespace are outside the model. -/
def parseFloat (s : String) : Option ℚ :=
  match s.toList with
  | '-' :: rest => (parseUnsignedFloat rest).map (fun q => -q)
  | '+' :: rest => parseUnsignedFloat rest
  | cs => parseUnsignedFloat cs

/-- The parsed command-line arguments of the cleaning stage: one field per
declared flag.  None of the `add_argument` calls passes `required=True`, so
`argparse` treats every flag as optional with default `None`; an absent flag
therefore leaves its field `none`. -/
structure Args where
  input_artifact : Option String
  output_artifact : Option String
  output_type : Option String
  output_description : Option String
  min_price : Option ℚ
  max_price : Option ℚ
deriving DecidableEq, Repr

/-- The state of the parser before any argument is consumed: every
destination holds `argparse`'s default `None`. -/
def initArgs : Args := ⟨none, none, none, none, none, none⟩

/-- The six flags declared by the `parser.add_argument` calls. -/
def flagNames : List String :=
  ["--input_artifact", "--output_artifact", "--output_type",
   "--output_description", "--min_price", "--max_price"]

/-- Models `parser.parse_args()` on an argument vector: each declared flag
consumes one following value (`--min_price` and `--max_price` through the
`float` converter, failing on a malformed number); a declared flag with no
following value, or any token that is not a declared flag, is a parse error
(`argparse` exits with status 2).  No flag is required, so an exhausted
vector succeeds with whatever has been stored so far. -/
def parseArgs : List String → Args → Except String Args
  | [], a => .ok a
  | [f], _ =>
    if flagNames.contains f then .error "expected one argument"
    else .error "unrecognized arguments"
  | f :: v :: rest, a =>
    if f = "--input_artifact" then parseArgs rest { a with input_artifact := some v }
    else if f = "--output_artifact" then parseArgs rest { a with output_artifact := some v }
    else if f = "--output_type" then parseArgs rest { a with output_type := some v }
    else if f = "--output_description" then parseArgs rest { a with output_description := some v }
    else if f = "--min_price" then
      match parseFloat v with
      | some q => parseArgs rest { a with min_price := some q }
      | none => .error "invalid float value"
    else if f = "--max_price" then
      match parseFloat v with
      | some q => parseArgs rest { a with max_price := some q }
      | none => .error "invalid float value"
    else .error "unrecognized arguments"

/-! ## The pipeline driver (`main.py`) -/

/-- The `_steps` list of `main.py` (lines 11–21): the canonical stage names
run by default; `test_regression_model` is commented out there. -/
def _steps : List String :=
  ["download", "basic_cleaning", "data_check", "data_split", "train_random_forest"]

/-- Python `steps_par.split(",")`: the empty string yields `[""]`, and
trailing commas yield trailing empty fields. -/
def splitComma (s : String) : List String :=
  (splitOnCharAux ',' s.toList []).map String.mk

/-- `active_steps = steps_par.split(",") if steps_par != "all" else _steps`
(`main.py` line 38). -/
def activeSteps (steps_par : String) : List String :=
  if steps_par ≠ "all" then splitComma steps_par else _steps

/-- The stage names tested by the chain of `if "..." in active_steps` blocks
in `go` of `main.py`, in the order the blocks appear (lines 43–126). -/
def stageChecks : List String :=
  ["download", "basic_cleaning", "data_check", "data_split",
   "train_random_forest", "test_regression_model"]

/-- The stages `main.py` actually invokes via `mlflow.run`, in invocation
order: each `if` block fires exactly when its stage name is a member of the
active list, and the blocks execute in their textual order. -/
def invokedStages (steps_par : String) : List String :=
  stageChecks.filter (fun s => decide (s ∈ activeSteps steps_par))

/-- The columns of a raw row other than `last_review` (the ones the cleaning
stage never rewrites). -/
def stripLR (r : Row) : Option ℚ × Option ℚ × Option ℚ × String :=
  (r.price, r.longitude, r.latitude, r.other)

/-- The columns of a cleaned row other than `last_review`. -/
def stripLRC (c : CleanRow) : Option ℚ × Option ℚ × Option ℚ × String :=
  (c.price, c.longitude, c.latitude, c.other)

/-! ## Helper lemmas -/

theorem between_eq_true_iff (v : Option ℚ) (lo hi : ℚ) :
    between v lo hi = true ↔ ∃ x, v = some x ∧ lo ≤ x ∧ x ≤ hi := by
  cases v with
  | none => simp [between]
  | some x => simp [between, and_assoc]

theorem lonLow_eq : lonLow = -74.25 := by
  rw [lonLow, Rat.mkRat_eq_div]; norm_num

theorem lonHigh_eq : lonHigh = -73.50 := by
  rw [lonHigh, Rat.mkRat_eq_div]; norm_num

theorem latLow_eq : latLow = 40.5 := by
  rw [latLow, Rat.mkRat_eq_div]; norm_num

theorem latHigh_eq : latHigh = 41.2 := by
  rw [latHigh, Rat.mkRat_eq_div]; norm_num

theorem to_datetime_row_ok_proj {r : Row} {c : CleanRow}
    (h : to_datetime_row r = .ok c) : stripLRC c = stripLR r := by
  cases hl : r.last_review with
  | none =>
    simp only [to_datetime_row, hl] at h
    injection h with h
    subst h
    rfl
  | some s =>
    simp only [to_datetime_row, hl] at h
    cases hp : parseDate s with
    | none => rw [hp] at h; simp at h
    | some d =>
      rw [hp] at h
      injection h with h
      subst h
      rfl

theorem to_datetime_ok_mem :
    ∀ (df : List Row) (ys : List CleanRow), to_datetime df = .ok ys →
      ∀ c ∈ ys, ∃ r, r ∈ df ∧ to_datetime_row r = .ok c := by
  intro df
  induction df with
  | nil =>
    intro ys h c hc
    simp only [to_datetime] at h
    injection h with h
    subst h
    simp at hc
  | cons r rest ih =>
    intro ys h c hc
    simp only [to_datetime] at h
    cases hr : to_datetime_row r with
    | error e => rw [hr] at h; simp at h
    | ok c0 =>
      rw [hr] at h
      cases hrest : to_datetime rest with
      | error e => rw [hrest] at h; simp at h
      | ok cs =>
        rw [hrest] at h
        injection h with h
        subst h
        rcases List.mem_cons.mp hc with rfl | hmem
        · exact ⟨r, List.mem_cons_self r rest, hr⟩
        · obtain ⟨r0, hr0mem, hr0⟩ := ih cs hrest c hmem
          exact ⟨r0, List.mem_cons_of_mem r hr0mem, hr0⟩

theorem to_datetime_ok_proj :
    ∀ (df : List Row) (ys : List CleanRow), to_datetime df = .ok ys →
      ys.map stripLRC = df.map stripLR := by
  intro df
  induction df with
  | nil =>
    intro ys h
    simp only [to_datetime] at h
    injection h with h
    subst h
    rfl
  | cons r rest ih =>
    intro ys h
    simp only [to_datetime] at h
    cases hr : to_datetime_row r with
    | error e => rw [hr] at h; simp at h
    | ok c0 =>
      rw [hr] at h
      cases hrest : to_datetime rest with
      | error e => rw [hrest] at h; simp at h
      | ok cs =>
        rw [hrest] at h
        injection h with h
        subst h
        simp only [List.map_cons]
        rw [to_datetime_row_ok_proj hr, ih cs hrest]

theorem go_ok_elim {df : List Row} {mn mx : ℚ} {out : List CleanRow}
    (h : go df mn mx = .ok out) :
    ∃ ys, to_datetime (df.filter (fun r => between r.price mn mx)) = .ok ys ∧
      out = ys.filter (fun c =>
        between c.longitude lonLow lonHigh && between c.latitude latLow latHigh) := by
  simp only [go] at h
  cases hto : to_datetime (df.filter (fun r => between r.price mn mx)) with
  | error e => rw [hto] at h; simp at h
  | ok ys =>
    rw [hto] at h
    injection h with h
    exact ⟨ys, rfl, h.symm⟩

theorem go_mem_spec {df : List Row} {mn mx : ℚ} {out : List CleanRow}
    (h : go df mn mx = .ok out) {c : CleanRow} (hc : c ∈ out) :
    (∃ p, c.price = some p ∧ mn ≤ p ∧ p ≤ mx) ∧
    (∃ lo, c.longitude = some lo ∧ lonLow ≤ lo ∧ lo ≤ lonHigh) ∧
    (∃ la, c.latitude = some la ∧ latLow ≤ la ∧ la ≤ latHigh) := by
  obtain ⟨ys, hto, hout⟩ := go_ok_elim h
  rw [hout] at hc
  have hgeo := (List.mem_filter.mp hc).2
  rw [Bool.and_eq_true] at hgeo
  have hys : c ∈ ys := List.mem_of_mem_filter hc
  obtain ⟨r, hrmem, hr⟩ := to_datetime_ok_mem _ _ hto c hys
  have hpf : between r.price mn mx = true := (List.mem_filter.mp hrmem).2
  obtain ⟨p, hp, hp1, hp2⟩ := (between_eq_true_iff _ _ _).mp hpf
  have hcp : c.price = r.price := congrArg Prod.fst (to_datetime_row_ok_proj hr)
  exact ⟨⟨p, hcp.trans hp, hp1, hp2⟩,
    (between_eq_true_iff _ _ _).mp hgeo.1,
    (between_eq_true_iff _ _ _).mp hgeo.2⟩

/-! ## Claim theorems: the cleaning stage -/

/-- Claim C1: for every input dataset and every pair of thresholds, every row
of the output produced by the cleaning transformation has a (non-missing)
price with `min_price ≤ price ≤ max_price`, both endpoints inclusive. -/
theorem go_price_range (df : List Row) (min_price max_price : ℚ)
    (out : List CleanRow) (h : go df min_price max_price = .ok out) :
    ∀ c ∈ out, ∃ p, c.price = some p ∧ min_price ≤ p ∧ p ≤ max_price :=
  fun _ hc => (go_mem_spec h hc).1

/-- Witness for C1 at the spec's own example: thresholds 50–500 and input
prices 10, 100, 600 retain exactly the price-100 row, whose price lies in
the range. -/
theorem go_price_range_witness :
    ∃ p, (⟨some 100, some (-74), some 41, none, "b"⟩ : CleanRow).price = some p ∧
      (50 : ℚ) ≤ p ∧ p ≤ 500 :=
  go_price_range
    [⟨some 10, some (-74), some 41, none, "a"⟩,
     ⟨some 100, some (-74), some 41, none, "b"⟩,
     ⟨some 600, some (-74), some 41, none, "c"⟩] 50 500
    [⟨some 100, some (-74), some 41, none, "b"⟩] (by decide)
    ⟨some 100, some (-74), some 41, none, "b"⟩ (by decide)

/-- Claim C5: every row of the cleaned output has longitude in
`[-74.25, -73.50]` and latitude in `[40.5, 41.2]`, and these bounds are the
hard-coded constants of the cleaning stage (`go` takes only the dataframe and
the two price thresholds as inputs, so the box is not configurable from
outside the stage). -/
theorem go_geo_range (df : List Row) (min_price max_price : ℚ)
    (out : List CleanRow) (h : go df min_price max_price = .ok out) :
    (∀ c ∈ out,
      (∃ lo, c.longitude = some lo ∧ lonLow ≤ lo ∧ lo ≤ lonHigh) ∧
      (∃ la, c.latitude = some la ∧ latLow ≤ la ∧ la ≤ latHigh)) ∧
    lonLow = -74.25 ∧ lonHigh = -73.50 ∧ latLow = 40.5 ∧ latHigh = 41.2 :=
  ⟨fun _ hc => (go_mem_spec h hc).2, lonLow_eq, lonHigh_eq, latLow_eq, latHigh_eq⟩

/-- Witness for C5 at a concrete one-row dataset. -/
theorem go_geo_range_witness :
    (∃ lo, (⟨some 100, some (-74), some 41, none, "b"⟩ : CleanRow).longitude = some lo ∧
      lonLow ≤ lo ∧ lo ≤ lonHigh) ∧
    (∃ la, (⟨some 100, some (-74), some 41, none, "b"⟩ : CleanRow).latitude = some la ∧
      latLow ≤ la ∧ la ≤ latHigh) :=
  (go_geo_range [⟨some 100, some (-74), some 41, none, "b"⟩] 10 200
    [⟨some 100, some (-74), some 41, none, "b"⟩] (by decide)).1
    ⟨some 100, some (-74), some 41, none, "b"⟩ (by decide)

/-- Claim C9 (frame property): the cleaning transformation only deletes rows
and rewrites `last_review`: projecting away `last_review`, the output row
list is a sublist of the input row list — every output row is an input row,
retained rows keep their relative order, and all other column values are
unchanged. -/
theorem go_frame (df : List Row) (min_price max_price : ℚ)
    (out : List CleanRow) (h : go df min_price max_price = .ok out) :
    (out.map stripLRC).Sublist (df.map stripLR) := by
  obtain ⟨ys, hto, hout⟩ := go_ok_elim h
  rw [hout]
  have h1 : ((ys.filter (fun c =>
      between c.longitude lonLow lonHigh && between c.latitude latLow latHigh)).map
        stripLRC).Sublist (ys.map stripLRC) :=
    (List.filter_sublist ys).map stripLRC
  rw [to_datetime_ok_proj _ _ hto] at h1
  exact h1.trans ((List.filter_sublist df).map stripLR)

/-- Witness for C9 at a concrete three-row dataset. -/
theorem go_frame_witness :
    (([⟨some 100, some (-74), some 41, none, "b"⟩] : List CleanRow).map stripLRC).Sublist
      (([⟨some 10, some (-74), some 41, none, "a"⟩,
         ⟨some 100, some (-74), some 41, none, "b"⟩,
         ⟨some 600, some (-74), some 41, none, "c"⟩] : List Row).map stripLR) :=
  go_frame
    [⟨some 10, some (-74), some 41, none, "a"⟩,
     ⟨some 100, some (-74), some 41, none, "b"⟩,
     ⟨some 600, some (-74), some 41, none, "c"⟩] 50 500
    [⟨some 100, some (-74), some 41, none, "b"⟩] (by decide)

/-- Claim C10: a row with a missing (NaN) price, longitude or latitude never
appears in the cleaned output (a missing value is outside every `between`
range rather than an error), and when `min_price > max_price` the price
filter retains no rows, so the whole stage outputs the empty row list. -/
theorem go_missing_excluded :
    (∀ (df : List Row) (mn mx : ℚ) (out : List CleanRow),
      go df mn mx = .ok out →
        ∀ c ∈ out, c.price ≠ none ∧ c.longitude ≠ none ∧ c.latitude ≠ none) ∧
    (∀ (df : List Row) (mn mx : ℚ), mx < mn → go df mn mx = .ok []) := by
  constructor
  · intro df mn mx out h c hc
    obtain ⟨⟨p, hp, -⟩, ⟨lo, hlo, -⟩, ⟨la, hla, -⟩⟩ := go_mem_spec h hc
    exact ⟨by rw [hp]; exact Option.some_ne_none p,
           by rw [hlo]; exact Option.some_ne_none lo,
           by rw [hla]; exact Option.some_ne_none la⟩
  · intro df mn mx hlt
    have hfil : df.filter (fun r => between r.price mn mx) = [] := by
      refine List.filter_eq_nil_iff.mpr ?_
      intro r _
      cases hv : r.price with
      | none => simp [between]
      | some x =>
        simp only [between, Bool.and_eq_true, decide_eq_true_eq, not_and]
        intro h1 h2
        linarith
    simp [go, hfil, to_datetime]

/-- Witness for C10: a concrete retained row has no missing coordinates, and
reversed thresholds (`min_price = 100 > max_price = 10`) clean a nonempty
dataset to the empty output. -/
theorem go_missing_excluded_witness :
    ((⟨some 100, some (-74), some 41, none, "b"⟩ : CleanRow).price ≠ none ∧
     (⟨some 100, some (-74), some 41, none, "b"⟩ : CleanRow).longitude ≠ none ∧
     (⟨some 100, some (-74), some 41, none, "b"⟩ : CleanRow).latitude ≠ none) ∧
    go [⟨some 50, some (-74), some 41, none, "a"⟩] 100 10 = .ok [] :=
  ⟨go_missing_excluded.1 [⟨some 100, some (-74), some 41, none, "b"⟩] 50 500
    [⟨some 100, some (-74), some 41, none, "b"⟩] (by decide)
    ⟨some 100, some (-74), some 41, none, "b"⟩ (by decide),
   go_missing_excluded.2 [⟨some 50, some (-74), some 41, none, "a"⟩] 100 10 (by norm_num)⟩

/-- Claim C8: the row-filtering and column-conversion transformation is
deterministic in its input and parameters — two runs of `go` on the same
dataframe with identical thresholds produce identical results. -/
theorem go_deterministic (df : List Row) (min_price max_price : ℚ)
    (o1 o2 : Except String (List CleanRow))
    (h1 : go df min_price max_price = o1) (h2 : go df min_price max_price = o2) :
    o1 = o2 := by
  rw [← h1, ← h2]

/-- Witness for C8 at a concrete dataset: both runs give the same output. -/
theorem go_deterministic_witness :
    (Except.ok [(⟨some 100, some (-74), some 41, none, "b"⟩ : CleanRow)] :
      Except String (List CleanRow)) =
    Except.ok [⟨some 100, some (-74), some 41, none, "b"⟩] :=
  go_deterministic [⟨some 100, some (-74), some 41, none, "b"⟩] 50 500
    (Except.ok [⟨some 100, some (-74), some 41, none, "b"⟩])
    (Except.ok [⟨some 100, some (-74), some 41, none, "b"⟩])
    (by decide) (by decide)

/-- Counterexample to claim C2: the code calls `pd.to_datetime` with the
default `errors="raise"`, so a price-retained row whose `last_review` is the
unparsable string `"never"` makes the cleaning transformation raise instead
of storing null. -/
theorem go_unparsable_last_review_raises :
    go [⟨some 50, some (-74), some 41, some "never", "x"⟩] 10 100 =
      .error "unparsable last_review" := by
  decide

/-- Claim C2 as amended: parsing `last_review` maps a missing value (NaN) to
null (NaT) without error and a parsable string to its date, but an
unparsable string raises an error rather than becoming null. -/
theorem to_datetime_row_spec (r : Row) :
    (r.last_review = none →
      to_datetime_row r = .ok ⟨r.price, r.longitude, r.latitude, none, r.other⟩) ∧
    (∀ s d, r.last_review = some s → parseDate s = some d →
      to_datetime_row r = .ok ⟨r.price, r.longitude, r.latitude, some d, r.other⟩) ∧
    (∀ s, r.last_review = some s → parseDate s = none →
      to_datetime_row r = .error "unparsable last_review") := by
  refine ⟨?_, ?_, ?_⟩
  · intro hl
    simp [to_datetime_row, hl]
  · intro s d hl hp
    simp [to_datetime_row, hl, hp]
  · intro s hl hp
    simp [to_datetime_row, hl, hp]

/-- Witness for the amended C2: a missing `last_review` stays null and the
unparsable string `"never"` raises. -/
theorem to_datetime_row_spec_witness :
    to_datetime_row ⟨some 1, some (-74), some 41, none, "y"⟩ =
      .ok ⟨some 1, some (-74), some 41, none, "y"⟩ ∧
    to_datetime_row ⟨some 1, some (-74), some 41, some "never", "y"⟩ =
      .error "unparsable last_review" :=
  ⟨(to_datetime_row_spec ⟨some 1, some (-74), some 41, none, "y"⟩).1 rfl,
   (to_datetime_row_spec ⟨some 1, some (-74), some 41, some "never", "y"⟩).2.2
     "never" rfl (by decide)⟩

/-! ## Claim theorems: the pipeline driver -/

/-- Claim C3: with `main.steps = "all"` the active subset is exactly the
`_steps` list, `test_regression_model` is not in it and is never invoked,
even though it is one of the stage names the driver knows how to run. -/
theorem steps_all_excludes_test_regression :
    activeSteps "all" = _steps ∧
    invokedStages "all" = _steps ∧
    (activeSteps "all").contains "test_regression_model" = false ∧
    (invokedStages "all").contains "test_regression_model" = false ∧
    stageChecks.contains "test_regression_model" = true := by
  decide

/-- Claim C4: the explicit list `"download,data_split"` invokes exactly
`download` then `data_split`; listing them in the opposite order invokes the
same stages in the same (canonical) order; and in general the invocation
sequence is always a sublist of the canonical stage order. -/
theorem steps_explicit_pair_order :
    invokedStages "download,data_split" = ["download", "data_split"] ∧
    invokedStages "data_split,download" = ["download", "data_split"] ∧
    ∀ s : String, (invokedStages s).Sublist stageChecks :=
  ⟨by decide, by decide, fun _ => List.filter_sublist stageChecks⟩

/-- Claim C7: names in an explicit stage list that are not canonical stage
names are silently ignored (every invoked stage is a canonical one, and a
list mixing a known and an unknown name invokes only the known one), and an
active subset containing no canonical name invokes nothing. -/
theorem unknown_steps_ignored :
    (∀ p s, s ∈ invokedStages p → s ∈ stageChecks) ∧
    (∀ p, (∀ c ∈ stageChecks, c ∉ activeSteps p) → invokedStages p = []) ∧
    invokedStages "download,not_a_stage" = ["download"] := by
  refine ⟨?_, ?_, by decide⟩
  · intro p s hs
    exact (List.mem_filter.mp hs).1
  · intro p hp
    refine List.filter_eq_nil_iff.mpr ?_
    intro c hc
    simp [hp c hc]

/-- Witness for C7: a list of two unknown names invokes no stage at all. -/
theorem unknown_steps_ignored_witness :
    invokedStages "bogus_one,bogus_two" = [] :=
  unknown_steps_ignored.2.1 "bogus_one,bogus_two" (by decide)

/-! ## Claim theorems: the cleaning-stage CLI -/

/-- Counterexample to claim C6: no `add_argument` call passes
`required=True`, so parsing an empty argument vector (every flag omitted)
succeeds with every destination still `None` instead of failing. -/
theorem parseArgs_empty_ok :
    parseArgs [] initArgs = .ok ⟨none, none, none, none, none, none⟩ := by
  decide

/-- Claim C6 as amended: the CLI accepts exactly the six declared flags
(anything else is a parse error), `--min_price` and `--max_price` go through
the floating-point converter (a malformed number is a parse error), but no
flag is required: omitting any or all of them parses successfully, leaving
the corresponding values `None`. -/
theorem parseArgs_spec :
    flagNames = ["--input_artifact", "--output_artifact", "--output_type",
      "--output_description", "--min_price", "--max_price"] ∧
    parseArgs [] initArgs = .ok initArgs ∧
    (∀ f v a, f ∉ flagNames → parseArgs [f, v] a = .error "unrecognized arguments") ∧
    (∀ v q rest a, parseFloat v = some q →
      parseArgs ("--min_price" :: v :: rest) a = parseArgs rest { a with min_price := some q }) ∧
    (∀ v q rest a, parseFloat v = some q →
      parseArgs ("--max_price" :: v :: rest) a = parseArgs rest { a with max_price := some q }) ∧
    (∀ v rest a, parseArgs ("--input_artifact" :: v :: rest) a =
      parseArgs rest { a with input_artifact := some v }) ∧
    (∀ v rest a, parseArgs ("--output_artifact" :: v :: rest) a =
      parseArgs rest { a with output_artifact := some v }) ∧
    (∀ v rest a, parseArgs ("--output_type" :: v :: rest) a =
      parseArgs rest { a with output_type := some v }) ∧
    (∀ v rest a, parseArgs ("--output_description" :: v :: rest) a =
      parseArgs rest { a with output_description := some v }) ∧
    (∀ v, parseFloat v = none → ∀ rest a,
      parseArgs ("--min_price" :: v :: rest) a = .error "invalid float value") := by
  refine ⟨rfl, by decide, ?_, ?_, ?_, ?_, ?_, ?_, ?_, ?_⟩
  · intro f v a hf
    simp only [flagNames, List.mem_cons, List.not_mem_nil, or_false, not_or] at hf
    obtain ⟨h1, h2, h3, h4, h5, h6⟩ := hf
    simp [parseArgs, h1, h2, h3, h4, h5, h6]
  · intro v q rest a hv
    simp [parseArgs, hv]
  · intro v q rest a hv
    simp [parseArgs, hv]
  · intro v rest a
    simp [parseArgs]
  · intro v rest a
    simp [parseArgs]
  · intro v rest a
    simp [parseArgs]
  · intro v rest a
    simp [parseArgs]
  · intro v hv rest a
    simp [parseArgs, hv]

/-- Witness for the amended C6: an unknown flag is rejected, and a
`--min_price` of `"5.5"` is stored as the rational `11/2`. -/
theorem parseArgs_spec_witness :
    parseArgs ["--frobnicate", "1"] initArgs = .error "unrecognized arguments" ∧
    parseArgs ["--min_price", "5.5"] initArgs =
      parseArgs [] { initArgs with min_price := some (mkRat 11 2) } :=
  ⟨parseArgs_spec.2.2.1 "--frobnicate" "1" initArgs (by decide),
   parseArgs_spec.2.2.2.1 "5.5" (mkRat 11 2) [] initArgs (by decide)⟩

end MLPipeline
